import Mathlib

/-!
Verification of the Vc SIMD vector/mask/memory-access abstraction layer
(`doc/dox-common-ops.h`).  The repository ships only the documented contract
(declarations plus Doxygen semantics); the operational definitions below are
shallow embeddings of that contract: vectors are `Fin n`-indexed families of
scalars, masks are per-lane booleans, memory is a list of scalars, and the
gather/scatter/store loops are modelled as the per-lane scalar loops the
contract describes.
-/

set_option autoImplicit false

namespace Vc

/-- A SIMD vector with `n` lanes of scalar type `α` (`VECTOR_TYPE` with
`Size = n` and `ENTRY_TYPE = α`).  Lane `i` of `v` is `v i`. -/
abbrev Vec (α : Type) (n : Nat) : Type := Fin n → α

/-- A per-lane boolean mask with `n` lanes (`MASK_TYPE`). -/
abbrev Mask (n : Nat) : Type := Fin n → Bool

/-- The all-true mask: every lane selected. -/
def allTrue (n : Nat) : Mask n := fun _ => true

/-- The all-false mask: no lane selected. -/
def allFalse (n : Nat) : Mask n := fun _ => false

/-- The number of true lanes of a mask. -/
def countTrue {n : Nat} (m : Mask n) : Nat :=
  ((List.finRange n).filter (fun i => m i)).length

/-- Modelled from the spec: the transient write proxy returned by
`v(mask)` (`MaskedVector operator()(const MASK_TYPE &mask)`, whose body is
absent from the repository).  It binds the vector and the mask and carries no
storage of its own. -/
structure MaskedVector (α : Type) (n : Nat) where
  vec : Vec α n
  mask : Mask n

/-- Modelled from the spec: `operator()(mask)` on a vector, returning the
write proxy used for masked assignment (implementation body absent). -/
def callMask {α : Type} {n : Nat} (v : Vec α n) (m : Mask n) : MaskedVector α n :=
  ⟨v, m⟩

/-- Modelled from the spec: `v(mask) = rhs` — lane `i` becomes `rhs i` when
the mask is true there and keeps the old value otherwise (implementation body
absent from the repository). -/
def MaskedVector.assign {α : Type} {n : Nat} (p : MaskedVector α n) (rhs : Vec α n) :
    Vec α n :=
  fun i => if p.mask i then rhs i else p.vec i

/-- Modelled from the spec: `v(mask) += rhs` — lane `i` becomes
`v i + rhs i` when the mask is true there and keeps the old value otherwise
(implementation body absent from the repository). -/
def MaskedVector.addAssign {α : Type} [Add α] {n : Nat} (p : MaskedVector α n)
    (rhs : Vec α n) : Vec α n :=
  fun i => if p.mask i then p.vec i + rhs i else p.vec i

/-- Modelled from the spec: `++v(mask)` — lane `i` becomes `v i + 1` when the
mask is true there and keeps the old value otherwise (implementation body
absent from the repository). -/
def MaskedVector.preIncrement {α : Type} [Add α] [One α] {n : Nat}
    (p : MaskedVector α n) : Vec α n :=
  fun i => if p.mask i then p.vec i + 1 else p.vec i

/-- Modelled from the spec: `makeZero()` — set all lanes to zero
(implementation body absent from the repository). -/
def makeZero {α : Type} [Zero α] (n : Nat) : Vec α n := fun _ => 0

/-- Modelled from the spec: `makeZero(mask)` — set the lanes selected by the
mask to zero and leave the other lanes unchanged (implementation body absent
from the repository). -/
def makeZeroMasked {α : Type} [Zero α] {n : Nat} (v : Vec α n) (m : Mask n) :
    Vec α n :=
  fun i => if m i then 0 else v i

/-- Modelled from the spec: the `VECTOR_TYPE(Vc::Zero)` tag constructor — all
lanes are zero (implementation body absent from the repository). -/
def vecZero (α : Type) [Zero α] (n : Nat) : Vec α n := fun _ => 0

/-- Modelled from the spec: the static factory `Zero()` — returns a vector
with all lanes zero (implementation body absent from the repository). -/
def zeroFactory (α : Type) [Zero α] (n : Nat) : Vec α n := vecZero α n

/-- Modelled from the spec: the `VECTOR_TYPE(Vc::One)` tag constructor — all
lanes are one (implementation body absent from the repository). -/
def vecOne (α : Type) [One α] (n : Nat) : Vec α n := fun _ => 1

/-- Modelled from the spec: the integer-only `VECTOR_TYPE(Vc::IndexesFromZero)`
tag constructor — lane `i` holds the value `i` (implementation body absent
from the repository; the constructor exists only under `#ifdef INTEGER`, hence
the `Nat` lane type). -/
def indexesFromZero (n : Nat) : Vec Nat n := fun i => (i : Nat)

/-- Modelled from the spec: the static factory `IndexesFromZero()`
(implementation body absent from the repository). -/
def indexesFromZeroFactory (n : Nat) : Vec Nat n := indexesFromZero n

/-- Modelled from the spec: the shared masked gather of the three addressing
forms (direct, one member level, two member levels), whose implementation
bodies are absent from the repository.  Lane `i` reads `array[indexes i]`
(through the accessor `f`) only when the mask is true there; a masked-off lane
keeps the previous lane value `old i` and its index is never dereferenced, so
the result is defined exactly when every true lane's index is in range
(`none` models the undefined behaviour of an unmasked invalid index). -/
def gatherVia {σ α : Type} {n : Nat} (array : List σ) (f : σ → α) (old : Vec α n)
    (indexes : Vec Nat n) (m : Mask n) : Option (Vec α n) :=
  if h : ∀ i : Fin n, m i = true → indexes i < array.length then
    some (fun i => if hm : m i = true then f (array.get ⟨indexes i, h i hm⟩) else old i)
  else none

/-- Modelled from the spec: the masked direct gather
`gather(array, indexes, mask)` (implementation body absent). -/
def gatherMasked {α : Type} {n : Nat} (array : List α) (old : Vec α n)
    (indexes : Vec Nat n) (m : Mask n) : Option (Vec α n) :=
  gatherVia array id old indexes m

/-- Modelled from the spec: the masked gather through one struct member,
`gather(array, member1, indexes, mask)`; the member pointer is modelled as the
accessor `member1` (implementation body absent). -/
def gatherMember1 {σ α : Type} {n : Nat} (array : List σ) (member1 : σ → α)
    (old : Vec α n) (indexes : Vec Nat n) (m : Mask n) : Option (Vec α n) :=
  gatherVia array member1 old indexes m

/-- Modelled from the spec: the masked gather through two struct member
levels, `gather(array, member1, member2, indexes, mask)` (implementation body
absent). -/
def gatherMember2 {σ τ α : Type} {n : Nat} (array : List σ) (member1 : σ → τ)
    (member2 : τ → α) (old : Vec α n) (indexes : Vec Nat n) (m : Mask n) :
    Option (Vec α n) :=
  gatherVia array (fun s => member2 (member1 s)) old indexes m

/-- Modelled from the spec: the unmasked direct gather, i.e. the constructor
`VECTOR_TYPE(const ENTRY_TYPE *array, const INDEX_TYPE &indexes)` and the
method `gather(array, indexes)` — lane `i` becomes `array[indexes i]`
(implementation bodies absent; `none` models the undefined behaviour of an
invalid index). -/
def gather {α : Type} {n : Nat} (array : List α) (indexes : Vec Nat n) :
    Option (Vec α n) :=
  if h : ∀ i : Fin n, indexes i < array.length then
    some (fun i => array.get ⟨indexes i, h i⟩)
  else none

/-- Modelled from the spec: the addresses a masked gather/scatter call
dereferences — exactly the indices of the lanes selected by the mask, since
only the entries selected in the mask are read in memory. -/
def accessTrace {n : Nat} (indexes : Vec Nat n) (m : Mask n) : List Nat :=
  ((List.finRange n).filter (fun i => m i)).map (fun i => indexes i)

/-- Modelled from the spec: one lane of the per-lane scalar scatter loop — a
true lane updates memory element `indexes i` through `upd`, a false lane
leaves the memory untouched and never dereferences its index. -/
def scatterStep {σ α : Type} {n : Nat} (upd : σ → α → σ) (v : Vec α n)
    (indexes : Vec Nat n) (m : Mask n) (i : Fin n) (mem : List σ) : List σ :=
  if m i then
    match mem[indexes i]? with
    | some s => mem.set (indexes i) (upd s (v i))
    | none => mem
  else mem

/-- Modelled from the spec: the per-lane scalar scatter loop, processing the
given lanes in order (implementation bodies absent from the repository). -/
def scatterLoop {σ α : Type} {n : Nat} (upd : σ → α → σ) (v : Vec α n)
    (indexes : Vec Nat n) (m : Mask n) : List (Fin n) → List σ → List σ
  | [], mem => mem
  | i :: rest, mem => scatterLoop upd v indexes m rest (scatterStep upd v indexes m i mem)

/-- Modelled from the spec: the masked direct scatter
`scatter(array, indexes, mask)` — `array[indexes i] = v i` for every true
lane (implementation body absent). -/
def scatterMasked {α : Type} {n : Nat} (v : Vec α n) (array : List α)
    (indexes : Vec Nat n) (m : Mask n) : List α :=
  scatterLoop (fun _ x => x) v indexes m (List.finRange n) array

/-- Modelled from the spec: the unmasked direct scatter
`scatter(array, indexes)` (implementation body absent). -/
def scatter {α : Type} {n : Nat} (v : Vec α n) (array : List α)
    (indexes : Vec Nat n) : List α :=
  scatterMasked v array indexes (allTrue n)

/-- Modelled from the spec: the masked scatter through one struct member,
`scatter(array, member1, indexes, mask)`; writing through the member pointer
is modelled as the field update `upd1` (implementation body absent). -/
def scatterMember1 {σ α : Type} {n : Nat} (upd1 : σ → α → σ) (v : Vec α n)
    (array : List σ) (indexes : Vec Nat n) (m : Mask n) : List σ :=
  scatterLoop upd1 v indexes m (List.finRange n) array

/-- Modelled from the spec: the masked scatter through two struct member
levels, `scatter(array, member1, member2, indexes, mask)`; reading the outer
member uses `member1`, writing uses the field updates `upd1` and `upd2`
(implementation body absent). -/
def scatterMember2 {σ τ α : Type} {n : Nat} (member1 : σ → τ) (upd1 : σ → τ → σ)
    (upd2 : τ → α → τ) (v : Vec α n) (array : List σ) (indexes : Vec Nat n)
    (m : Mask n) : List σ :=
  scatterLoop (fun s x => upd1 s (upd2 (member1 s) x)) v indexes m (List.finRange n) array

/-- The alignment flags of the load/store interface, with the two documented
values `Aligned` and `Unaligned`. -/
inductive AlignmentFlags where
  | Aligned : AlignmentFlags
  | Unaligned : AlignmentFlags
deriving DecidableEq

/-- A caller-owned scalar buffer together with whether its address satisfies
the hardware alignment boundary (`Vc::VectorAlignment`). -/
structure Buffer (α : Type) where
  data : List α
  alignedAddr : Bool

/-- Modelled from the spec: `load(memory, align)` — overwrites all `n` lanes
from the first `n` buffer elements; passing `Aligned` for a misaligned
pointer, or reading past the end of the buffer, is undefined behaviour,
represented as `none` (implementation body absent from the repository). -/
def load (α : Type) (n : Nat) (buf : Buffer α) (align : AlignmentFlags) :
    Option (Vec α n) :=
  if align = AlignmentFlags.Aligned ∧ buf.alignedAddr = false then none
  else if h : buf.data.length < n then none
  else some (fun i => buf.data.get ⟨i, Nat.lt_of_lt_of_le i.isLt (Nat.le_of_not_lt h)⟩)

/-- Modelled from the spec: the per-lane write loop of `store` — lane `i` is
written to buffer element `i` (implementation body absent from the
repository). -/
def storeList {α : Type} {n : Nat} (v : Vec α n) (data : List α) : List α :=
  scatterLoop (fun _ x => x) v (fun i => (i : Nat)) (allTrue n) (List.finRange n) data

/-- Modelled from the spec: `store(memory, align)` — writes all `n` lanes to
the first `n` buffer elements; passing `Aligned` for a misaligned pointer is
undefined behaviour, represented as `none` (implementation body absent from
the repository). -/
def store {α : Type} {n : Nat} (v : Vec α n) (buf : Buffer α)
    (align : AlignmentFlags) : Option (Buffer α) :=
  if align = AlignmentFlags.Aligned ∧ buf.alignedAddr = false then none
  else some ⟨storeList v buf.data, buf.alignedAddr⟩

/-- The default value of the `align` parameter in the source declarations
`load(const ENTRY_TYPE *memory, AlignmentFlags align = Aligned)` and
`store(EntryType *memory, AlignmentFlags align = Aligned)`
(dox-common-ops.h lines 167 and 188). -/
def defaultAlignment : AlignmentFlags := AlignmentFlags.Aligned

/-- A `load(memory)` call that omits the alignment flag: the omitted
parameter takes the declared default (dox-common-ops.h line 167). -/
def loadDefault (α : Type) (n : Nat) (buf : Buffer α) : Option (Vec α n) :=
  load α n buf defaultAlignment

/-- A `store(memory)` call that omits the alignment flag: the omitted
parameter takes the declared default (dox-common-ops.h line 188). -/
def storeDefault {α : Type} {n : Nat} (v : Vec α n) (buf : Buffer α) :
    Option (Buffer α) :=
  store v buf defaultAlignment

/-- Modelled from the spec: a floating-point lane value, reduced to what the
documented contract observes — NaN or a finite value (represented as a
rational; non-finite arithmetic results are collapsed to NaN since the
contract only observes NaN behaviour). -/
inductive FloatVal where
  | nan : FloatVal
  | fin : ℚ → FloatVal
deriving DecidableEq

/-- Modelled from the spec: IEEE scalar equality — false whenever either
operand is NaN. -/
def fEq : FloatVal → FloatVal → Bool
  | FloatVal.fin a, FloatVal.fin b => decide (a = b)
  | _, _ => false

/-- Modelled from the spec: IEEE scalar inequality — true whenever either
operand is NaN (the negation of `fEq`). -/
def fNe : FloatVal → FloatVal → Bool
  | FloatVal.fin a, FloatVal.fin b => decide (a ≠ b)
  | _, _ => true

/-- Modelled from the spec: IEEE scalar less-than — false whenever either
operand is NaN. -/
def fLt : FloatVal → FloatVal → Bool
  | FloatVal.fin a, FloatVal.fin b => decide (a < b)
  | _, _ => false

/-- Modelled from the spec: IEEE scalar less-or-equal — false whenever either
operand is NaN. -/
def fLe : FloatVal → FloatVal → Bool
  | FloatVal.fin a, FloatVal.fin b => decide (a ≤ b)
  | _, _ => false

/-- Modelled from the spec: IEEE scalar greater-than — false whenever either
operand is NaN. -/
def fGt : FloatVal → FloatVal → Bool
  | FloatVal.fin a, FloatVal.fin b => decide (b < a)
  | _, _ => false

/-- Modelled from the spec: IEEE scalar greater-or-equal — false whenever
either operand is NaN. -/
def fGe : FloatVal → FloatVal → Bool
  | FloatVal.fin a, FloatVal.fin b => decide (b ≤ a)
  | _, _ => false

/-- Modelled from the spec: IEEE scalar addition — NaN propagates. -/
def fAdd : FloatVal → FloatVal → FloatVal
  | FloatVal.fin a, FloatVal.fin b => FloatVal.fin (a + b)
  | _, _ => FloatVal.nan

/-- Modelled from the spec: IEEE scalar subtraction — NaN propagates. -/
def fSub : FloatVal → FloatVal → FloatVal
  | FloatVal.fin a, FloatVal.fin b => FloatVal.fin (a - b)
  | _, _ => FloatVal.nan

/-- Modelled from the spec: IEEE scalar multiplication — NaN propagates. -/
def fMul : FloatVal → FloatVal → FloatVal
  | FloatVal.fin a, FloatVal.fin b => FloatVal.fin (a * b)
  | _, _ => FloatVal.nan

/-- Modelled from the spec: IEEE scalar division — NaN propagates, and the
non-finite result of dividing by zero is collapsed to NaN. -/
def fDiv : FloatVal → FloatVal → FloatVal
  | FloatVal.fin a, FloatVal.fin b => if b = 0 then FloatVal.nan else FloatVal.fin (a / b)
  | _, _ => FloatVal.nan

/-- Modelled from the spec: w-bit unsigned machine-integer addition with the
native wraparound (result taken mod `2 ^ w`). -/
def wrapAdd (w a b : Nat) : Nat := (a + b) % 2 ^ w

/-- Modelled from the spec: w-bit unsigned machine-integer subtraction with
the native wraparound. -/
def wrapSub (w a b : Nat) : Nat := (a + (2 ^ w - b % 2 ^ w)) % 2 ^ w

/-- Modelled from the spec: w-bit unsigned machine-integer multiplication
with the native wraparound. -/
def wrapMul (w a b : Nat) : Nat := (a * b) % 2 ^ w

/-- Modelled from the spec: the elementwise comparison producing a mask: lane
`i` of the result is the scalar comparison of `a i` and `b i`, evaluated in
every lane (the comparison operator bodies are absent from the repository). -/
def vCmp {α : Type} {n : Nat} (f : α → α → Bool) (a b : Vec α n) : Mask n :=
  fun i => f (a i) (b i)

/-- Modelled from the spec: the elementwise binary arithmetic or logic
operator: lane `i` of the result is the native scalar operation applied to
`a i` and `b i`, with no special-casing by the abstraction (the operator
bodies are absent from the repository). -/
def vBinop {α : Type} {n : Nat} (f : α → α → α) (a b : Vec α n) : Vec α n :=
  fun i => f (a i) (b i)

/-- Modelled from the spec: `operator==` on floating-point vectors. -/
def opEqF {n : Nat} (a b : Vec FloatVal n) : Mask n := vCmp fEq a b

/-- Modelled from the spec: `operator!=` on floating-point vectors. -/
def opNeF {n : Nat} (a b : Vec FloatVal n) : Mask n := vCmp fNe a b

/-- Modelled from the spec: `operator>` on floating-point vectors. -/
def opGtF {n : Nat} (a b : Vec FloatVal n) : Mask n := vCmp fGt a b

/-- Modelled from the spec: `operator>=` on floating-point vectors. -/
def opGeF {n : Nat} (a b : Vec FloatVal n) : Mask n := vCmp fGe a b

/-- Modelled from the spec: `operator<` on floating-point vectors. -/
def opLtF {n : Nat} (a b : Vec FloatVal n) : Mask n := vCmp fLt a b

/-- Modelled from the spec: `operator<=` on floating-point vectors. -/
def opLeF {n : Nat} (a b : Vec FloatVal n) : Mask n := vCmp fLe a b

/-- Modelled from the spec: `operator+` on w-bit integer vectors. -/
def addW (w : Nat) {n : Nat} (a b : Vec Nat n) : Vec Nat n := vBinop (wrapAdd w) a b

/-- Modelled from the spec: `operator-` on w-bit integer vectors. -/
def subW (w : Nat) {n : Nat} (a b : Vec Nat n) : Vec Nat n := vBinop (wrapSub w) a b

/-- Modelled from the spec: `operator*` on w-bit integer vectors. -/
def mulW (w : Nat) {n : Nat} (a b : Vec Nat n) : Vec Nat n := vBinop (wrapMul w) a b

/-- Modelled from the spec: `operator/` on integer vectors (native truncating
division). -/
def divW {n : Nat} (a b : Vec Nat n) : Vec Nat n := vBinop (fun x y => x / y) a b

/-- Modelled from the spec: the bitwise integer-only `operator|`. -/
def orW {n : Nat} (a b : Vec Nat n) : Vec Nat n := vBinop Nat.lor a b

/-- Modelled from the spec: the bitwise integer-only `operator&`. -/
def andW {n : Nat} (a b : Vec Nat n) : Vec Nat n := vBinop Nat.land a b

/-- Modelled from the spec: the bitwise integer-only `operator^`. -/
def xorW {n : Nat} (a b : Vec Nat n) : Vec Nat n := vBinop Nat.xor a b

/-- Modelled from the spec: `operator+` on floating-point vectors. -/
def addF {n : Nat} (a b : Vec FloatVal n) : Vec FloatVal n := vBinop fAdd a b

/-- Modelled from the spec: `operator-` on floating-point vectors. -/
def subF {n : Nat} (a b : Vec FloatVal n) : Vec FloatVal n := vBinop fSub a b

/-- Modelled from the spec: `operator*` on floating-point vectors. -/
def mulF {n : Nat} (a b : Vec FloatVal n) : Vec FloatVal n := vBinop fMul a b

/-- Modelled from the spec: `operator/` on floating-point vectors. -/
def divF {n : Nat} (a b : Vec FloatVal n) : Vec FloatVal n := vBinop fDiv a b

/-- Modelled from the spec: the kinds of single-argument construction
expression the documented contract distinguishes — the literals 0 and 1, any
other scalar value, and the disambiguating tag values (the overload
resolution itself happens in the C++ compiler and is absent from the
repository). -/
inductive CtorArg where
  | litZero : CtorArg
  | litOne : CtorArg
  | scalar : ℚ → CtorArg
  | tagZero : CtorArg
  | tagOne : CtorArg
  | tagIndexesFromZero : CtorArg
deriving DecidableEq

/-- The single-argument constructor overloads taking part in the 0/1
disambiguation (dox-common-ops.h lines 89, 101, 109 and 139). -/
inductive CtorOverload where
  | fromZeroTag : CtorOverload
  | fromOneTag : CtorOverload
  | fromIndexesTag : CtorOverload
  | broadcast : CtorOverload
deriving DecidableEq

/-- Modelled from the spec: which overloads are viable for each argument —
the broadcast constructor accepts any scalar, and the literals 0 and 1 also
match the corresponding tag constructor, since the contract states that the
compiler cannot know which constructor is meant. -/
def viable : CtorArg → CtorOverload → Bool
  | CtorArg.litZero, CtorOverload.fromZeroTag => true
  | CtorArg.litZero, CtorOverload.broadcast => true
  | CtorArg.litOne, CtorOverload.fromOneTag => true
  | CtorArg.litOne, CtorOverload.broadcast => true
  | CtorArg.scalar _, CtorOverload.broadcast => true
  | CtorArg.tagZero, CtorOverload.fromZeroTag => true
  | CtorArg.tagOne, CtorOverload.fromOneTag => true
  | CtorArg.tagIndexesFromZero, CtorOverload.fromIndexesTag => true
  | _, _ => false

/-- The outcome of compile-time overload resolution. -/
inductive CompileResult where
  | ok : CtorOverload → CompileResult
  | ambiguous : CompileResult
  | noMatch : CompileResult
deriving DecidableEq

/-- The constructor overloads in declaration order. -/
def overloadList : List CtorOverload :=
  [CtorOverload.fromZeroTag, CtorOverload.fromOneTag, CtorOverload.fromIndexesTag,
    CtorOverload.broadcast]

/-- Modelled from the spec: compile-time overload resolution — a unique
viable overload is selected, no viable overload is a compile error, and more
than one viable overload is rejected as ambiguous, a compile-time error. -/
def resolveCtor (a : CtorArg) : CompileResult :=
  match overloadList.filter (fun c => viable a c) with
  | [c] => CompileResult.ok c
  | [] => CompileResult.noMatch
  | _ => CompileResult.ambiguous

/-- Modelled from the spec: the runtime semantics of a single-argument
construction expression exists only when overload resolution succeeded; a
statically rejected expression has no runtime fallback (`none`). -/
def ctorSemantics (n : Nat) (a : CtorArg) : Option (Vec ℚ n) :=
  match resolveCtor a with
  | CompileResult.ok CtorOverload.fromZeroTag => some (vecZero ℚ n)
  | CompileResult.ok CtorOverload.fromOneTag => some (vecOne ℚ n)
  | CompileResult.ok CtorOverload.fromIndexesTag =>
      some (fun i => ((indexesFromZero n i : Nat) : ℚ))
  | CompileResult.ok CtorOverload.broadcast =>
      some (fun _ =>
        match a with
        | CtorArg.scalar x => x
        | CtorArg.litZero => 0
        | CtorArg.litOne => 1
        | _ => 0)
  | _ => none

end Vc

namespace Vc

theorem scatterStep_length {σ α : Type} {n : Nat} (upd : σ → α → σ) (v : Vec α n)
    (indexes : Vec Nat n) (m : Mask n) (i : Fin n) (mem : List σ) :
    (scatterStep upd v indexes m i mem).length = mem.length := by
  rw [scatterStep]
  by_cases hm : m i
  · rw [if_pos hm]
    cases hg : mem[indexes i]? with
    | none => rfl
    | some s => simp
  · rw [if_neg hm]

theorem scatterStep_frame {σ α : Type} {n : Nat} (upd : σ → α → σ) (v : Vec α n)
    (indexes : Vec Nat n) (m : Mask n) (i : Fin n) (mem : List σ) (a : Nat)
    (h : m i = true → indexes i ≠ a) :
    (scatterStep upd v indexes m i mem)[a]? = mem[a]? := by
  rw [scatterStep]
  by_cases hm : m i
  · rw [if_pos hm]
    cases hg : mem[indexes i]? with
    | none => rfl
    | some s => exact List.getElem?_set_ne (h hm)
  · rw [if_neg hm]

theorem scatterStep_set {α : Type} {n : Nat} (v : Vec α n) (indexes : Vec Nat n)
    (m : Mask n) (i : Fin n) (mem : List α) (hm : m i = true)
    (hlt : indexes i < mem.length) :
    scatterStep (fun _ x => x) v indexes m i mem = mem.set (indexes i) (v i) := by
  rw [scatterStep, if_pos hm, List.getElem?_eq_getElem hlt]

theorem scatterLoop_length {σ α : Type} {n : Nat} (upd : σ → α → σ) (v : Vec α n)
    (indexes : Vec Nat n) (m : Mask n) (l : List (Fin n)) :
    ∀ mem : List σ, (scatterLoop upd v indexes m l mem).length = mem.length := by
  induction l with
  | nil => intro mem; rfl
  | cons i rest ih =>
      intro mem
      rw [scatterLoop, ih, scatterStep_length]

theorem scatterLoop_frame {σ α : Type} {n : Nat} (upd : σ → α → σ) (v : Vec α n)
    (indexes : Vec Nat n) (m : Mask n) (a : Nat) (l : List (Fin n)) :
    ∀ mem : List σ, (∀ i ∈ l, m i = true → indexes i ≠ a) →
      (scatterLoop upd v indexes m l mem)[a]? = mem[a]? := by
  induction l with
  | nil => intro mem _; rfl
  | cons i rest ih =>
      intro mem hall
      rw [scatterLoop, ih _ (fun j hj => hall j (List.mem_cons_of_mem i hj)),
        scatterStep_frame]
      exact hall i (List.mem_cons_self i rest)

theorem scatterLoop_get_unique {α : Type} {n : Nat} (v : Vec α n)
    (indexes : Vec Nat n) (m : Mask n) (l : List (Fin n)) :
    ∀ (mem : List α) (i : Fin n), i ∈ l → m i = true → indexes i < mem.length →
      (∀ j ∈ l, m j = true → indexes j = indexes i → j = i) →
      (scatterLoop (fun _ x => x) v indexes m l mem)[indexes i]? = some (v i) := by
  induction l with
  | nil => intro mem i hi; cases hi
  | cons k rest ih =>
      intro mem i hi hm hlen huniq
      rw [scatterLoop]
      by_cases hir : i ∈ rest
      · refine ih _ i hir hm ?_
          (fun j hj hmj he => huniq j (List.mem_cons_of_mem k hj) hmj he)
        rw [scatterStep_length]
        exact hlen
      · have hik : i = k := by
          rcases List.mem_cons.mp hi with h | h
          · exact h
          · exact absurd h hir
        subst hik
        have hfr : ∀ j ∈ rest, m j = true → indexes j ≠ indexes i := by
          intro j hj hmj he
          exact hir (huniq j (List.mem_cons_of_mem i hj) hmj he ▸ hj)
        rw [scatterLoop_frame _ v indexes m (indexes i) rest _ hfr,
          scatterStep_set v indexes m i mem hm hlen]
        exact List.getElem?_set_self hlen

theorem scatterLoop_get_mem {α : Type} {n : Nat} (v : Vec α n)
    (indexes : Vec Nat n) (m : Mask n) (l : List (Fin n)) :
    ∀ (mem : List α) (a : Nat), (∃ i, i ∈ l ∧ m i = true ∧ indexes i = a) →
      a < mem.length →
      ∃ i, i ∈ l ∧ m i = true ∧ indexes i = a ∧
        (scatterLoop (fun _ x => x) v indexes m l mem)[a]? = some (v i) := by
  induction l with
  | nil =>
      intro mem a h
      rcases h with ⟨i, hi, _⟩
      cases hi
  | cons k rest ih =>
      intro mem a hex ha
      rw [scatterLoop]
      by_cases hr : ∃ i, i ∈ rest ∧ m i = true ∧ indexes i = a
      · obtain ⟨i, hi, hmi, hidx, hres⟩ :=
          ih (scatterStep (fun _ x => x) v indexes m k mem) a hr
            (by rw [scatterStep_length]; exact ha)
        exact ⟨i, List.mem_cons_of_mem k hi, hmi, hidx, hres⟩
      · obtain ⟨i, hi, hmi, hidx⟩ := hex
        have hik : i = k := by
          rcases List.mem_cons.mp hi with h | h
          · exact h
          · exact absurd ⟨i, h, hmi, hidx⟩ hr
        subst hik
        have hfr : ∀ j ∈ rest, m j = true → indexes j ≠ a :=
          fun j hj hmj he => hr ⟨j, hj, hmj, he⟩
        rw [scatterLoop_frame _ v indexes m a rest _ hfr,
          scatterStep_set v indexes m i mem hmi (hidx ▸ ha)]
        refine ⟨i, List.mem_cons_self i rest, hmi, hidx, ?_⟩
        rw [hidx]
        exact List.getElem?_set_self (hidx ▸ ha)

theorem storeList_length {α : Type} {n : Nat} (v : Vec α n) (data : List α) :
    (storeList v data).length = data.length :=
  scatterLoop_length _ v _ (allTrue n) (List.finRange n) data

theorem storeList_getElem {α : Type} {n : Nat} (v : Vec α n) (data : List α)
    (hn : n ≤ data.length) (i : Fin n) :
    (storeList v data)[(i : Nat)]? = some (v i) := by
  refine scatterLoop_get_unique v _ (allTrue n) (List.finRange n) data i
    (List.mem_finRange i) rfl (Nat.lt_of_lt_of_le i.isLt hn) ?_
  intro j _ _ he
  exact Fin.ext he

/-- C1: the masked assignment operations `v(m) = rhs`, `v(m) += rhs`,
`++v(m)` and `makeZero(m)` update exactly the lanes where the mask is true —
lane `i` becomes `op (v i) (rhs i)` there — and leave every false lane
unchanged; `v(allTrue) = rhs` equals `rhs` and `v(allFalse) = rhs` equals the
original `v`. -/
theorem C1_masked_assignment {α : Type} [Add α] [Zero α] [One α] {n : Nat}
    (v rhs : Vec α n) (m : Mask n) (i : Fin n) :
    ((callMask v m).assign rhs i = if m i then rhs i else v i)
    ∧ ((callMask v m).addAssign rhs i = if m i then v i + rhs i else v i)
    ∧ ((callMask v m).preIncrement i = if m i then v i + 1 else v i)
    ∧ (makeZeroMasked v m i = if m i then 0 else v i)
    ∧ ((callMask v (allTrue n)).assign rhs = rhs)
    ∧ ((callMask v (allFalse n)).assign rhs = v) := by
  refine ⟨rfl, rfl, rfl, rfl, ?_, ?_⟩
  · funext j
    simp [MaskedVector.assign, callMask, allTrue]
  · funext j
    simp [MaskedVector.assign, callMask, allFalse]

/-- C3: every lane of the `Zero`-tag vector and of the static factory
`Zero()` is `0`, every lane of the `One`-tag vector is `1`, and for the
integer-only `IndexesFromZero` tag, lane `i` holds the value `i`. -/
theorem C3_tag_constructors {α : Type} [Zero α] [One α] {n : Nat} (i : Fin n) :
    vecZero α n i = 0 ∧ zeroFactory α n i = 0 ∧ vecOne α n i = 1
    ∧ indexesFromZero n i = (i : Nat)
    ∧ indexesFromZeroFactory n i = (i : Nat) := by
  exact ⟨rfl, rfl, rfl, rfl, rfl⟩

/-- C2: in every masked gather or scatter call (all three addressing forms) a
lane whose mask bit is false is never read or written and its index is never
dereferenced: the gathers are well-defined as soon as every true lane's index
is in range (masked-off lanes may hold arbitrary out-of-range indices), a
masked-off gather lane keeps its previous value, the scatters never touch an
address that no true lane indexes and never change the memory footprint, and
the number of memory accesses equals the number of true mask bits. -/
theorem C2_masked_gather_scatter_safety {σ τ α : Type} {n : Nat}
    (array : List α) (arrayS : List σ) (f1 : σ → α) (g1 : σ → τ) (g2 : τ → α)
    (u1 : σ → α → σ) (u1b : σ → τ → σ) (u2 : τ → α → τ)
    (old v : Vec α n) (indexes : Vec Nat n) (m : Mask n) (memS : List σ)
    (a : Nat) :
    ((∀ i, m i = true → indexes i < array.length) →
        (gatherMasked array old indexes m).isSome = true)
    ∧ ((∀ i, m i = true → indexes i < arrayS.length) →
        (gatherMember1 arrayS f1 old indexes m).isSome = true)
    ∧ ((∀ i, m i = true → indexes i < arrayS.length) →
        (gatherMember2 arrayS g1 g2 old indexes m).isSome = true)
    ∧ (∀ w, gatherMasked array old indexes m = some w →
        ∀ i, m i = false → w i = old i)
    ∧ ((accessTrace indexes m).length = countTrue m)
    ∧ (∀ b ∈ accessTrace indexes m, ∃ i, m i = true ∧ indexes i = b)
    ∧ ((scatterMasked v array indexes m).length = array.length)
    ∧ ((scatterMember1 u1 v memS indexes m).length = memS.length)
    ∧ ((scatterMember2 g1 u1b u2 v memS indexes m).length = memS.length)
    ∧ ((∀ i, m i = true → indexes i ≠ a) →
        (scatterMasked v array indexes m)[a]? = array[a]?
        ∧ (scatterMember1 u1 v memS indexes m)[a]? = memS[a]?) := by
  refine ⟨?_, ?_, ?_, ?_, ?_, ?_, ?_, ?_, ?_, ?_⟩
  · intro h
    rw [gatherMasked, gatherVia, dif_pos h]
    rfl
  · intro h
    rw [gatherMember1, gatherVia, dif_pos h]
    rfl
  · intro h
    rw [gatherMember2, gatherVia, dif_pos h]
    rfl
  · intro w hw i hmi
    rw [gatherMasked, gatherVia] at hw
    split at hw
    · cases hw
      simp [hmi]
    · cases hw
  · rw [accessTrace, countTrue, List.length_map]
  · intro b hb
    rw [accessTrace] at hb
    obtain ⟨i, hi, hib⟩ := List.mem_map.mp hb
    exact ⟨i, (List.mem_filter.mp hi).2, hib⟩
  · exact scatterLoop_length _ v indexes m (List.finRange n) array
  · exact scatterLoop_length _ v indexes m (List.finRange n) memS
  · exact scatterLoop_length _ v indexes m (List.finRange n) memS
  · intro hne
    constructor
    · exact scatterLoop_frame _ v indexes m a (List.finRange n) array
        (fun i _ => hne i)
    · exact scatterLoop_frame _ v indexes m a (List.finRange n) memS
        (fun i _ => hne i)

/-- C4: for an index vector whose indices are all valid for the array, the
unmasked direct gather produces `some` vector whose lane `i` equals
`array[indexes i]` for every lane. -/
theorem C4_unmasked_gather {α : Type} [Inhabited α] {n : Nat} (array : List α)
    (indexes : Vec Nat n) (h : ∀ i : Fin n, indexes i < array.length) :
    ∃ w, gather array indexes = some w
      ∧ ∀ i, w i = array.getD (indexes i) default := by
  refine ⟨fun i => array.get ⟨indexes i, h i⟩, ?_, ?_⟩
  · rw [gather, dif_pos h]
  · intro i
    show array.get ⟨indexes i, h i⟩ = array.getD (indexes i) default
    rw [List.get_eq_getElem, List.getD_eq_getElem?_getD,
      List.getElem?_eq_getElem (h i)]
    rfl

/-- C5: storing a vector to a buffer that holds at least `n` scalars and
satisfies the alignment boundary and then loading from the same buffer
reproduces the original lane values, for every combination of the `Aligned`
and `Unaligned` paths. -/
theorem C5_store_load_roundtrip {α : Type} {n : Nat} (v : Vec α n)
    (buf : Buffer α) (ha : buf.alignedAddr = true) (hn : n ≤ buf.data.length)
    (f g : AlignmentFlags) :
    ∃ buf2, store v buf f = some buf2 ∧ load α n buf2 g = some v := by
  refine ⟨⟨storeList v buf.data, buf.alignedAddr⟩, ?_, ?_⟩
  · rw [store, if_neg]
    intro hcon
    rw [ha] at hcon
    cases hcon.2
  · have hlen : ¬((storeList v buf.data).length < n) := by
      rw [storeList_length]
      exact Nat.not_lt.mpr hn
    rw [load, if_neg, dif_neg hlen]
    · refine congrArg some (funext fun i => ?_)
      have hchar := storeList_getElem v buf.data hn i
      show (storeList v buf.data).get
        ⟨(i : Nat), Nat.lt_of_lt_of_le i.isLt (Nat.le_of_not_lt hlen)⟩ = v i
      rw [List.get_eq_getElem]
      rw [List.getElem?_eq_getElem (Nat.lt_of_lt_of_le i.isLt (Nat.le_of_not_lt hlen))]
        at hchar
      exact Option.some.inj hchar
    · intro hcon
      rw [ha] at hcon
      cases hcon.2

/-- C9: an unmasked direct scatter whose index vector may contain duplicate
indices never changes the memory footprint, never writes to an address that
no lane indexes, and at every address that some lane does index (and that is
in range) the final value is the value written by one of the lanes addressing
it. -/
theorem C9_scatter_collisions {α : Type} {n : Nat} (v : Vec α n)
    (array : List α) (indexes : Vec Nat n) (a : Nat) :
    ((scatter v array indexes).length = array.length)
    ∧ ((∀ i : Fin n, indexes i ≠ a) →
        (scatter v array indexes)[a]? = array[a]?)
    ∧ ((∃ i : Fin n, indexes i = a) → a < array.length →
        ∃ i : Fin n, indexes i = a ∧ (scatter v array indexes)[a]? = some (v i)) := by
  refine ⟨scatterLoop_length _ v indexes (allTrue n) (List.finRange n) array, ?_, ?_⟩
  · intro hne
    exact scatterLoop_frame _ v indexes (allTrue n) a (List.finRange n) array
      (fun i _ _ => hne i)
  · intro hex ha
    obtain ⟨i, hidx⟩ := hex
    obtain ⟨j, _, _, hjdx, hres⟩ :=
      scatterLoop_get_mem v indexes (allTrue n) (List.finRange n) array a
        ⟨i, List.mem_finRange i, rfl, hidx⟩ ha
    exact ⟨j, hjdx, hres⟩

/-- C10: the alignment flag of `load` and `store` is an optional parameter
defaulting to `Aligned`, so a call that omits the flag behaves exactly like
the explicit `Aligned` call and in particular requires the buffer to satisfy
the hardware alignment boundary. -/
theorem C10_default_alignment {α : Type} {n : Nat} (v : Vec α n)
    (buf : Buffer α) :
    loadDefault α n buf = load α n buf AlignmentFlags.Aligned
    ∧ storeDefault v buf = store v buf AlignmentFlags.Aligned
    ∧ (buf.alignedAddr = false →
        loadDefault α n buf = none ∧ storeDefault v buf = none) := by
  refine ⟨rfl, rfl, ?_⟩
  intro hmis
  constructor
  · rw [loadDefault, load, if_pos ⟨rfl, hmis⟩]
  · rw [storeDefault, store, if_pos ⟨rfl, hmis⟩]

/-- C6: each comparison operator produces a mask whose lane `i` is the scalar
comparison of `a i` and `b i`, evaluated in every lane, and for floating
point the IEEE semantics apply: every ordered comparison involving NaN is
false in that lane. -/
theorem C6_comparisons_to_mask {n : Nat} (a b : Vec FloatVal n) (i : Fin n)
    (x : FloatVal) :
    (opEqF a b i = fEq (a i) (b i))
    ∧ (opNeF a b i = fNe (a i) (b i))
    ∧ (opGtF a b i = fGt (a i) (b i))
    ∧ (opGeF a b i = fGe (a i) (b i))
    ∧ (opLtF a b i = fLt (a i) (b i))
    ∧ (opLeF a b i = fLe (a i) (b i))
    ∧ (fEq FloatVal.nan x = false ∧ fEq x FloatVal.nan = false)
    ∧ (fGt FloatVal.nan x = false ∧ fGt x FloatVal.nan = false)
    ∧ (fGe FloatVal.nan x = false ∧ fGe x FloatVal.nan = false)
    ∧ (fLt FloatVal.nan x = false ∧ fLt x FloatVal.nan = false)
    ∧ (fLe FloatVal.nan x = false ∧ fLe x FloatVal.nan = false) := by
  refine ⟨rfl, rfl, rfl, rfl, rfl, rfl, ?_, ?_, ?_, ?_, ?_⟩ <;>
    cases x <;> exact ⟨rfl, rfl⟩

/-- C7: the elementwise operators produce lane `i` equal to the native scalar
operation applied to `a i` and `b i`: wraparound modulo `2 ^ w` for w-bit
integer `+ - *`, truncating division, bitwise `| & ^`, and NaN-propagating
floating-point arithmetic, with no special-casing by the abstraction. -/
theorem C7_elementwise_arithmetic {w n : Nat} (a b : Vec Nat n)
    (p q : Vec FloatVal n) (i : Fin n) (x : FloatVal) :
    (addW w a b i = (a i + b i) % 2 ^ w)
    ∧ (subW w a b i = (a i + (2 ^ w - b i % 2 ^ w)) % 2 ^ w)
    ∧ (mulW w a b i = (a i * b i) % 2 ^ w)
    ∧ (divW a b i = a i / b i)
    ∧ (orW a b i = Nat.lor (a i) (b i))
    ∧ (andW a b i = Nat.land (a i) (b i))
    ∧ (xorW a b i = Nat.xor (a i) (b i))
    ∧ (addF p q i = fAdd (p i) (q i))
    ∧ (subF p q i = fSub (p i) (q i))
    ∧ (mulF p q i = fMul (p i) (q i))
    ∧ (divF p q i = fDiv (p i) (q i))
    ∧ (fAdd FloatVal.nan x = FloatVal.nan ∧ fAdd x FloatVal.nan = FloatVal.nan)
    ∧ (fMul FloatVal.nan x = FloatVal.nan ∧ fMul x FloatVal.nan = FloatVal.nan) := by
  refine ⟨rfl, rfl, rfl, rfl, rfl, rfl, rfl, rfl, rfl, rfl, rfl, ?_, ?_⟩ <;>
    cases x <;> exact ⟨rfl, rfl⟩

/-- C8: constructing from the literal 0 or the literal 1 is rejected at
compile time as ambiguous between the tag constructor and the broadcast
constructor, with no runtime fallback; any other scalar resolves uniquely to
the broadcast constructor, the tags resolve uniquely to their tag
constructors, and ambiguity arises for no argument other than the two
literals. -/
theorem C8_ambiguous_literal_construction (n : Nat) (x : ℚ) :
    resolveCtor CtorArg.litZero = CompileResult.ambiguous
    ∧ resolveCtor CtorArg.litOne = CompileResult.ambiguous
    ∧ ctorSemantics n CtorArg.litZero = none
    ∧ ctorSemantics n CtorArg.litOne = none
    ∧ resolveCtor (CtorArg.scalar x) = CompileResult.ok CtorOverload.broadcast
    ∧ resolveCtor CtorArg.tagZero = CompileResult.ok CtorOverload.fromZeroTag
    ∧ resolveCtor CtorArg.tagOne = CompileResult.ok CtorOverload.fromOneTag
    ∧ (∀ a, resolveCtor a = CompileResult.ambiguous →
        a = CtorArg.litZero ∨ a = CtorArg.litOne) := by
  refine ⟨rfl, rfl, rfl, rfl, rfl, rfl, rfl, ?_⟩
  intro a
  cases a with
  | litZero => intro _; exact Or.inl rfl
  | litOne => intro _; exact Or.inr rfl
  | scalar y => intro h; exact CompileResult.noConfusion h
  | tagZero => intro h; exact CompileResult.noConfusion h
  | tagOne => intro h; exact CompileResult.noConfusion h
  | tagIndexesFromZero => intro h; exact CompileResult.noConfusion h

/-- Witness for C8: at four lanes and scalar 5, the literal 0 is rejected as
ambiguous, and the only-literals characterization applied to that rejection
identifies the literal. -/
theorem C8_ambiguous_literal_construction_witness :
    resolveCtor CtorArg.litZero = CompileResult.ambiguous
    ∧ ctorSemantics 4 CtorArg.litZero = none
    ∧ (CtorArg.litZero = CtorArg.litZero ∨ CtorArg.litZero = CtorArg.litOne) := by
  obtain ⟨h1, h2, h3, h4, h5, h6, h7, h8⟩ := C8_ambiguous_literal_construction 4 5
  exact ⟨h1, h3, h8 CtorArg.litZero h1⟩

/-- Witness for C2 at two lanes: the masked-off lane holds the out-of-range
index 99, yet all three gather forms succeed, the masked-off gather lane
keeps its old value, the access count equals the single true mask bit, and
the scatters preserve the footprint and leave the unaddressed location 0
unchanged. -/
theorem C2_masked_gather_scatter_safety_witness :
    ((gatherMasked [(10:Int),20,30] (![3,4] : Vec Int 2) (![1,99] : Vec Nat 2)
        (![true,false] : Mask 2)).isSome = true)
    ∧ ((gatherMember1 [((1:Int),(2:Int)),(3,4)] Prod.fst (![3,4] : Vec Int 2)
        (![1,99] : Vec Nat 2) (![true,false] : Mask 2)).isSome = true)
    ∧ ((gatherMember2 [((1:Int),(2:Int)),(3,4)] Prod.fst id (![3,4] : Vec Int 2)
        (![1,99] : Vec Nat 2) (![true,false] : Mask 2)).isSome = true)
    ∧ (∃ w, gatherMasked [(10:Int),20,30] (![3,4] : Vec Int 2)
        (![1,99] : Vec Nat 2) (![true,false] : Mask 2) = some w
        ∧ w 1 = (![3,4] : Vec Int 2) 1)
    ∧ ((accessTrace (![1,99] : Vec Nat 2) (![true,false] : Mask 2)).length
        = countTrue (![true,false] : Mask 2))
    ∧ (∃ i, (![true,false] : Mask 2) i = true ∧ (![1,99] : Vec Nat 2) i = 1)
    ∧ ((scatterMasked (![7,8] : Vec Int 2) [(10:Int),20,30] (![1,99] : Vec Nat 2)
        (![true,false] : Mask 2)).length = 3)
    ∧ ((scatterMember1 (fun s x => (x, s.2)) (![7,8] : Vec Int 2)
        [((1:Int),(2:Int)),(3,4)] (![1,99] : Vec Nat 2)
        (![true,false] : Mask 2)).length = 2)
    ∧ ((scatterMember2 Prod.fst (fun s t => (t, s.2)) (fun _ x => x)
        (![7,8] : Vec Int 2) [((1:Int),(2:Int)),(3,4)] (![1,99] : Vec Nat 2)
        (![true,false] : Mask 2)).length = 2)
    ∧ ((scatterMasked (![7,8] : Vec Int 2) [(10:Int),20,30] (![1,99] : Vec Nat 2)
        (![true,false] : Mask 2))[0]? = [(10:Int),20,30][0]?
        ∧ (scatterMember1 (fun s x => (x, s.2)) (![7,8] : Vec Int 2)
            [((1:Int),(2:Int)),(3,4)] (![1,99] : Vec Nat 2)
            (![true,false] : Mask 2))[0]?
          = [((1:Int),(2:Int)),(3,4)][0]?) := by
  obtain ⟨h1, h2, h3, h4, h5, h6, h7, h8, h9, h10⟩ :=
    C2_masked_gather_scatter_safety [(10:Int),20,30] [((1:Int),(2:Int)),(3,4)]
      Prod.fst Prod.fst id (fun s x => (x, s.2)) (fun s t => (t, s.2))
      (fun _ x => x) (![3,4] : Vec Int 2) (![7,8] : Vec Int 2)
      (![1,99] : Vec Nat 2) (![true,false] : Mask 2) [((1:Int),(2:Int)),(3,4)] 0
  refine ⟨h1 (by decide), h2 (by decide), h3 (by decide), ?_, h5,
    h6 1 (by decide), h7, h8, h9, h10 (by decide)⟩
  obtain ⟨w, hw⟩ := Option.isSome_iff_exists.mp (h1 (by decide))
  exact ⟨w, hw, h4 w hw 1 (by decide)⟩

/-- Witness for C4 at the documented scenario: gathering from
`[10,20,30,40]` with indices `[3,1,0,2]` yields `[40,20,10,30]`. -/
theorem C4_unmasked_gather_witness :
    ∃ w, gather [(10:Int),20,30,40] (![3,1,0,2] : Vec Nat 4) = some w
      ∧ w 0 = 40 ∧ w 1 = 20 ∧ w 2 = 10 ∧ w 3 = 30 := by
  obtain ⟨w, hw, hl⟩ :=
    C4_unmasked_gather [(10:Int),20,30,40] (![3,1,0,2] : Vec Nat 4) (by decide)
  refine ⟨w, hw, ?_, ?_, ?_, ?_⟩
  · rw [hl]; decide
  · rw [hl]; decide
  · rw [hl]; decide
  · rw [hl]; decide

/-- Witness for C5: storing `[5,6]` into an aligned three-element buffer of
zeros through the `Aligned` path and loading it back through the `Unaligned`
path reproduces the vector. -/
theorem C5_store_load_roundtrip_witness :
    ∃ buf2,
      store (![5,6] : Vec Int 2) ⟨[0,0,0], true⟩ AlignmentFlags.Aligned = some buf2
      ∧ load Int 2 buf2 AlignmentFlags.Unaligned = some ![5,6] :=
  C5_store_load_roundtrip (![5,6] : Vec Int 2) ⟨[0,0,0], true⟩ rfl (by decide)
    AlignmentFlags.Aligned AlignmentFlags.Unaligned

/-- Witness for C9 at a colliding index vector `[0,0,1,1]`: the footprint is
preserved, the unaddressed location 2 keeps its old value 9, and location 0
ends up holding the value of one of the two lanes that address it. -/
theorem C9_scatter_collisions_witness :
    ((scatter (![1,2,3,4] : Vec Int 4) [9,9,9] (![0,0,1,1] : Vec Nat 4)).length = 3)
    ∧ ((scatter (![1,2,3,4] : Vec Int 4) [9,9,9] (![0,0,1,1] : Vec Nat 4))[2]?
        = some 9)
    ∧ (∃ i : Fin 4, (![0,0,1,1] : Vec Nat 4) i = 0
        ∧ (scatter (![1,2,3,4] : Vec Int 4) [9,9,9] (![0,0,1,1] : Vec Nat 4))[0]?
          = some ((![1,2,3,4] : Vec Int 4) i)) := by
  obtain ⟨h1, _, h3⟩ :=
    C9_scatter_collisions (![1,2,3,4] : Vec Int 4) [9,9,9] (![0,0,1,1] : Vec Nat 4) 0
  obtain ⟨_, g2, _⟩ :=
    C9_scatter_collisions (![1,2,3,4] : Vec Int 4) [9,9,9] (![0,0,1,1] : Vec Nat 4) 2
  exact ⟨h1, (g2 (by decide)).trans rfl, h3 ⟨0, rfl⟩ (by decide)⟩

/-- Witness for C10 at a misaligned two-element buffer: the flagless calls
agree with the explicit `Aligned` calls and hit the alignment requirement. -/
theorem C10_default_alignment_witness :
    loadDefault Int 2 ⟨[1,2], false⟩ = load Int 2 ⟨[1,2], false⟩ AlignmentFlags.Aligned
    ∧ storeDefault (![5,6] : Vec Int 2) ⟨[1,2], false⟩
        = store (![5,6] : Vec Int 2) ⟨[1,2], false⟩ AlignmentFlags.Aligned
    ∧ (loadDefault Int 2 ⟨[1,2], false⟩ = none
        ∧ storeDefault (![5,6] : Vec Int 2) ⟨[1,2], false⟩ = none) := by
  obtain ⟨h1, h2, h3⟩ :=
    C10_default_alignment (![5,6] : Vec Int 2) (⟨[1,2], false⟩ : Buffer Int)
  exact ⟨h1, h2, h3 rfl⟩

end Vc
